import Mathlib

set_option maxRecDepth 100000

/- Verification of the analysis reconciliation engine of the grammar-checker
repository: the data model of src/types.ts, the response handling of the
service modules (src/unnamed), and the user-driven segment edits of
src/App.tsx.  JS strings are modelled as Lean strings, JS numbers as
rationals, optional object fields as Option values. -/

/-- Segment classification, from the union type in src/types.ts
(original | plagiarism | grammar). -/
inductive SegType where
  | original
  | plagiarism
  | grammar
deriving DecidableEq

/-- TextSegment, from src/types.ts; the optional fields keep their
undefined state as none. -/
structure TextSegment where
  text : String
  type : SegType
  suggestions : Option (List String) := none
  sourceUrl : Option String := none
  explanation : Option String := none
  citation : Option String := none
deriving DecidableEq

/-- Subtopic, from src/types.ts. -/
structure Subtopic where
  title : String
  segmentIndex : Int
deriving DecidableEq

/-- AnalysisResult, from src/types.ts. -/
structure AnalysisResult where
  plagiarismPercentage : ℚ
  grammarScore : ℚ
  aiLikelihood : ℚ
  writingTone : String
  overallSummary : String
  subtopics : List Subtopic
  segments : List TextSegment
  citations : List String
deriving DecidableEq

/-- Default segment used only as the out-of-range fallback of List.getD in
theorem statements. -/
def dSeg : TextSegment := { text := "", type := SegType.original }

/-- JS truthiness of an optional string field: undefined and the empty
string are falsy.  Models the test !seg.sourceUrl in the service modules. -/
def strFalsy : Option String → Bool
  | none => true
  | some s => s.isEmpty

/-- Guard of the reconciliation loops:
seg.type === 'plagiarism' && !seg.sourceUrl. -/
def unattributed (s : TextSegment) : Bool :=
  decide (s.type = SegType.plagiarism) && strFalsy s.sourceUrl

/-- URL extraction from the grounding chunks, as in every service variant:
chunks.map(c => c.web?.uri).filter(Boolean).  A chunk without a web uri
contributes undefined and is dropped; the empty string is falsy and is
dropped as well. -/
def extractUrls (chunks : List (Option String)) : List String :=
  (chunks.filterMap id).filter (fun s => !s.isEmpty)

/-- Round-robin backfill of sourceUrl, from src/unnamed/part_000 lines
88-100 (first service variant): the cursor urlIdx starts at 0, each
unattributed plagiarism segment receives urls[urlIdx], and the cursor
advances modulo urls.length.  Other segments pass through unchanged. -/
def reconcile (urls : List String) : Nat → List TextSegment → List TextSegment
  | _, [] => []
  | i, s :: rest =>
    if unattributed s && !urls.isEmpty then
      { s with sourceUrl := some (urls.getD i "") } ::
        reconcile urls ((i + 1) % urls.length) rest
    else
      s :: reconcile urls i rest

/-- Round-robin backfill of the second service variant (src/unnamed/part_000
lines 179-187): the guard tests the truthiness of urls[urlIdx] instead of
urls.length > 0, and the cursor advances only on assignment. -/
def reconcileB (urls : List String) : Nat → List TextSegment → List TextSegment
  | _, [] => []
  | i, s :: rest =>
    if unattributed s && !(urls.getD i "").isEmpty then
      { s with sourceUrl := some (urls.getD i "") } ::
        reconcileB urls ((i + 1) % urls.length) rest
    else
      s :: reconcileB urls i rest

/-- First-occurrence deduplication, the model of Array.from(new Set(urls)). -/
def jsDedupAux (seen : List String) : List String → List String
  | [] => []
  | x :: xs => if x ∈ seen then jsDedupAux seen xs else x :: jsDedupAux (x :: seen) xs

/-- Array.from(new Set(urls)). -/
def jsDedup (l : List String) : List String := jsDedupAux [] l

/-- Grounding step of the second service variant, src/unnamed/part_000
lines 174-189: when the chunk list and the extracted url list are nonempty,
backfill segment sourceUrls round-robin and append the count of distinct
sources to overallSummary. -/
def applyGroundingV2 (chunks : List (Option String)) (r : AnalysisResult) : AnalysisResult :=
  if chunks.isEmpty then r
  else
    let urls := extractUrls chunks
    if urls.isEmpty then r
    else
      { r with
          segments := reconcileB urls 0 r.segments,
          overallSummary := r.overallSummary ++ "\n\nPotential sources identified: " ++
            toString (jsDedup urls).length }

/-- Concatenation of the segment texts in order, the reconstruction used by
the exporter (result.segments.map(s => s.text).join('') in src/App.tsx). -/
def concatTexts : List TextSegment → String
  | [] => ""
  | s :: rest => s.text ++ concatTexts rest

/-- Total character count over a segment list:
newSegments.reduce((acc, s) => acc + s.text.length, 0). -/
def totalLen (segs : List TextSegment) : Nat :=
  segs.foldl (fun acc s => acc + s.text.length) 0

/-- Plagiarized character count:
newSegments.filter(s => s.type === 'plagiarism').reduce((acc, s) => acc + s.text.length, 0). -/
def plagLen (segs : List TextSegment) : Nat :=
  (segs.filter (fun s => decide (s.type = SegType.plagiarism))).foldl
    (fun acc s => acc + s.text.length) 0

/-- Math.round((p / t) * 100) for naturals with t > 0, computed exactly:
rounding half up equals floor((200 p + t) / (2 t)). -/
def roundPct (p t : Nat) : Nat := (200 * p + t) / (2 * t)

/-- Character-weighted percentage of src/App.tsx lines 100-105:
totalChars > 0 ? Math.round((plagiarizedChars / totalChars) * 100) : 0. -/
def recomputePct (segs : List TextSegment) : ℚ :=
  if 0 < totalLen segs then (roundPct (plagLen segs) (totalLen segs) : ℚ) else 0

/-- Replacement map of replaceSegment, src/App.tsx lines 96-98.  The source
replaces the one segment that is identical (===) to the selected segment;
that segment is modelled by its position sel in the list. -/
def replaceAt (sel : Nat) (sugg : String) : Nat → List TextSegment → List TextSegment
  | _, [] => []
  | j, s :: rest =>
    (if j = sel then { s with text := sugg, type := SegType.original } else s) ::
      replaceAt sel sugg (j + 1) rest

/-- replaceSegment from src/App.tsx lines 93-113: replace the selected
segment's text with the chosen suggestion, mark it original, and recompute
plagiarismPercentage from the new segments; every other field is spread
through unchanged. -/
def replaceSegment (r : AnalysisResult) (sel : Nat) (sugg : String) : AnalysisResult :=
  let newSegments := replaceAt sel sugg 0 r.segments
  { r with segments := newSegments, plagiarismPercentage := recomputePct newSegments }

/-- Per-segment step of handleAutoCorrectAll, src/App.tsx lines 117-122:
s.type !== 'original' && s.suggestions && s.suggestions.length > 0 selects
the segment for correction with its first suggestion. -/
def autoFix (s : TextSegment) : TextSegment :=
  if s.type ≠ SegType.original then
    match s.suggestions with
    | some (x :: _) => { s with text := x, type := SegType.original }
    | _ => s
  else s

/-- handleAutoCorrectAll from src/App.tsx lines 115-130: apply the first
suggestion to every flagged segment and force both scores. -/
def handleAutoCorrectAll (r : AnalysisResult) : AnalysisResult :=
  { r with
      segments := r.segments.map autoFix,
      plagiarismPercentage := 0,
      grammarScore := 100 }

/-- JSON value tree, the shape produced by JSON.parse. -/
inductive Json where
  | null
  | bool (b : Bool)
  | num (q : ℚ)
  | str (s : String)
  | arr (elems : List Json)
  | obj (fields : List (String × Json))

/-- Opening brace character. -/
def lbrace : Char := Char.ofNat 123

/-- Closing brace character. -/
def rbrace : Char := Char.ofNat 125

/-- Backtick character. -/
def bquote : Char := Char.ofNat 96

/-- JSON insignificant whitespace. -/
def isJsonWs (c : Char) : Bool := c = ' ' || c = '\n' || c = '\r' || c = '\t'

/-- Drop leading JSON whitespace. -/
def skipWs : List Char → List Char
  | [] => []
  | c :: cs => if isJsonWs c then skipWs cs else c :: cs

/-- Value of a hexadecimal digit. -/
def hexVal (c : Char) : Option Nat :=
  if '0' ≤ c ∧ c ≤ '9' then some (c.toNat - 48)
  else if 'a' ≤ c ∧ c ≤ 'f' then some (c.toNat - 87)
  else if 'A' ≤ c ∧ c ≤ 'F' then some (c.toNat - 55)
  else none

/-- Body of a JSON string after the opening quote, with the standard escape
sequences; returns the decoded string and the rest after the closing
quote. -/
def parseStrBody : List Char → List Char → Option (String × List Char)
  | _, [] => none
  | acc, c :: cs =>
    if c = '"' then some (String.mk acc.reverse, cs)
    else if c = '\\' then
      match cs with
      | [] => none
      | e :: cs2 =>
        if e = '"' then parseStrBody ('"' :: acc) cs2
        else if e = '\\' then parseStrBody ('\\' :: acc) cs2
        else if e = '/' then parseStrBody ('/' :: acc) cs2
        else if e = 'b' then parseStrBody (Char.ofNat 8 :: acc) cs2
        else if e = 'f' then parseStrBody (Char.ofNat 12 :: acc) cs2
        else if e = 'n' then parseStrBody ('\n' :: acc) cs2
        else if e = 'r' then parseStrBody ('\r' :: acc) cs2
        else if e = 't' then parseStrBody ('\t' :: acc) cs2
        else if e = 'u' then
          match cs2 with
          | a :: b :: c2 :: d :: cs3 =>
            match hexVal a, hexVal b, hexVal c2, hexVal d with
            | some x1, some x2, some x3, some x4 =>
              parseStrBody (Char.ofNat (((x1 * 16 + x2) * 16 + x3) * 16 + x4) :: acc) cs3
            | _, _, _, _ => none
          | _ => none
        else none
    else if c.toNat < 32 then none
    else parseStrBody (c :: acc) cs

/-- Take the maximal run of leading decimal digits. -/
def takeDigits : List Char → List Char × List Char
  | [] => ([], [])
  | c :: cs =>
    if c.isDigit then
      let (ds, r) := takeDigits cs
      (c :: ds, r)
    else ([], c :: cs)

/-- Natural value of a digit run. -/
def digitsVal (ds : List Char) : Nat := ds.foldl (fun a c => a * 10 + (c.toNat - 48)) 0

/-- JSON number grammar: optional minus, integer part without a spurious
leading zero, optional fraction, optional exponent; value as a rational. -/
def parseNum (cs : List Char) : Option (ℚ × List Char) :=
  let (neg, cs1) :=
    match cs with
    | c :: rest => if c = '-' then (true, rest) else (false, c :: rest)
    | [] => (false, [])
  let (ds, cs2) := takeDigits cs1
  if ds.isEmpty then none
  else if 1 < ds.length ∧ ds.headD '0' = '0' then none
  else
    let base : ℚ := (digitsVal ds : ℚ)
    let fracStep : Option (ℚ × List Char) :=
      match cs2 with
      | c :: rest =>
        if c = '.' then
          let (fs, cs3) := takeDigits rest
          if fs.isEmpty then none
          else some (base + (digitsVal fs : ℚ) / ((10 : ℚ) ^ fs.length), cs3)
        else some (base, c :: rest)
      | [] => some (base, [])
    match fracStep with
    | none => none
    | some (v1, cs4) =>
      let expStep : Option (ℚ × List Char) :=
        match cs4 with
        | c :: rest =>
          if c = 'e' ∨ c = 'E' then
            let (esign, cs5) :=
              match rest with
              | c2 :: rest2 =>
                if c2 = '+' then ((1 : Int), rest2)
                else if c2 = '-' then ((-1 : Int), rest2)
                else ((1 : Int), c2 :: rest2)
              | [] => ((1 : Int), [])
            let (es, cs6) := takeDigits cs5
            if es.isEmpty then none
            else some (v1 * (10 : ℚ) ^ (esign * (digitsVal es : Int)), cs6)
          else some (v1, c :: rest)
        | [] => some (v1, [])
      match expStep with
      | none => none
      | some (v2, cs7) => some (if neg then -v2 else v2, cs7)

/-- Insert or overwrite a key, keeping the original insertion position, the
way duplicate keys behave when JSON.parse builds an object. -/
def upsert (fs : List (String × Json)) (k : String) (v : Json) : List (String × Json) :=
  match fs with
  | [] => [(k, v)]
  | (k2, v2) :: rest => if k2 = k then (k, v) :: rest else (k2, v2) :: upsert rest k v

mutual

/-- One JSON value; fuel bounds the recursion depth and iteration count. -/
def parseVal : Nat → List Char → Option (Json × List Char)
  | 0, _ => none
  | fuel + 1, cs =>
    match skipWs cs with
    | [] => none
    | c :: rest =>
      if c = lbrace then
        match skipWs rest with
        | c2 :: rest2 =>
          if c2 = rbrace then some (Json.obj [], rest2)
          else parseFields fuel (c2 :: rest2) []
        | [] => none
      else if c = '[' then
        match skipWs rest with
        | c2 :: rest2 =>
          if c2 = ']' then some (Json.arr [], rest2)
          else parseElems fuel (c2 :: rest2) []
        | [] => none
      else if c = '"' then
        match parseStrBody [] rest with
        | some (s, r) => some (Json.str s, r)
        | none => none
      else if c = 'n' then
        match rest with
        | 'u' :: 'l' :: 'l' :: r => some (Json.null, r)
        | _ => none
      else if c = 't' then
        match rest with
        | 'r' :: 'u' :: 'e' :: r => some (Json.bool true, r)
        | _ => none
      else if c = 'f' then
        match rest with
        | 'a' :: 'l' :: 's' :: 'e' :: r => some (Json.bool false, r)
        | _ => none
      else if c = '-' ∨ c.isDigit then
        match parseNum (c :: rest) with
        | some (q, r) => some (Json.num q, r)
        | none => none
      else none

/-- Elements of a nonempty JSON array after the opening bracket. -/
def parseElems : Nat → List Char → List Json → Option (Json × List Char)
  | 0, _, _ => none
  | fuel + 1, cs, acc =>
    match parseVal fuel cs with
    | none => none
    | some (v, r) =>
      match skipWs r with
      | c :: r2 =>
        if c = ',' then parseElems fuel r2 (v :: acc)
        else if c = ']' then some (Json.arr (v :: acc).reverse, r2)
        else none
      | [] => none

/-- Members of a nonempty JSON object after the opening brace. -/
def parseFields : Nat → List Char → List (String × Json) → Option (Json × List Char)
  | 0, _, _ => none
  | fuel + 1, cs, acc =>
    match skipWs cs with
    | c :: rest =>
      if c = '"' then
        match parseStrBody [] rest with
        | none => none
        | some (k, r) =>
          match skipWs r with
          | c2 :: r2 =>
            if c2 = ':' then
              match parseVal fuel r2 with
              | none => none
              | some (v, r3) =>
                match skipWs r3 with
                | c3 :: r4 =>
                  if c3 = ',' then parseFields fuel r4 (upsert acc k v)
                  else if c3 = rbrace then some (Json.obj (upsert acc k v), r4)
                  else none
                | [] => none
            else none
          | [] => none
      else none
    | [] => none

end

/-- JSON.parse on a character list: parse one value and require only
whitespace after it, else the parse throws, modelled as none. -/
def jsonParseList (cs : List Char) : Option Json :=
  match parseVal (2 * cs.length + 2) cs with
  | some (j, rest) => if (skipWs rest).isEmpty then some j else none
  | none => none

/-- JSON.parse on a string. -/
def jsonParse (s : String) : Option Json := jsonParseList s.toList

/-- Whitespace removed by the JS String.trim. -/
def isJsTrimWs (c : Char) : Bool :=
  c = ' ' || c = '\t' || c = '\n' || c = '\r' || c = Char.ofNat 12 || c = Char.ofNat 11 ||
    c = Char.ofNat 160

/-- The JS String.trim. -/
def jsTrim (cs : List Char) : List Char :=
  ((cs.dropWhile isJsTrimWs).reverse.dropWhile isJsTrimWs).reverse

/-- Input acceptance of handleAnalyze, src/App.tsx lines 51-56: the input is
rejected when its JS trim is empty or its length is below 50. -/
def acceptsInput (s : String) : Bool :=
  !(jsTrim s.toList).isEmpty && !(s.length < 50)

/-- Three backticks. -/
def fenceRun : List Char := [bquote, bquote, bquote]

/-- The literal run of three backticks followed by the word json. -/
def fenceJsonRun : List Char := fenceRun ++ ['j', 's', 'o', 'n']

/-- Fence handling of the first service variant, src/unnamed/part_000 lines
81-83: when the text starts with three backticks, remove a leading backtick
json marker, remove a trailing three-backtick marker, and trim. -/
def stripFences (cs : List Char) : List Char :=
  if cs.take 3 = fenceRun then
    let c1 := if cs.take 7 = fenceJsonRun then cs.drop 7 else cs
    let c2 := if c1.reverse.take 3 = fenceRun then (c1.reverse.drop 3).reverse else c1
    jsTrim c2
  else cs

/-- Field lookup in a list of object members (keys are unique after
upsert). -/
def lookupField : List (String × Json) → String → Option Json
  | [], _ => none
  | (k2, v) :: rest, k => if k2 = k then some v else lookupField rest k

/-- JS property access on a parsed value: objects yield their member,
everything else yields undefined, modelled as none. -/
def jsGetField (j : Json) (k : String) : Option Json :=
  match j with
  | Json.obj fs => lookupField fs k
  | _ => none

/-- JS truthiness of a possibly absent parsed value. -/
def jsFalsy : Option Json → Bool
  | none => true
  | some Json.null => true
  | some (Json.bool b) => !b
  | some (Json.num q) => decide (q = 0)
  | some (Json.str s) => s.isEmpty
  | some (Json.arr _) => false
  | some (Json.obj _) => false

/-- Test seg.type === 'plagiarism' on a parsed segment value. -/
def isPlagJson (seg : Json) : Bool :=
  match jsGetField seg "type" with
  | some (Json.str t) => t = "plagiarism"
  | _ => false

/-- Object spread {...seg, sourceUrl: u} on a parsed object. -/
def setFieldJson (j : Json) (k : String) (v : Json) : Json :=
  match j with
  | Json.obj fs => Json.obj (upsert fs k v)
  | _ => j

/-- Round-robin url backfill of the first service variant at the level of
the parsed values (src/unnamed/part_000 lines 90-100).  A null element
throws on the seg.type access; the throw is modelled as none. -/
def jsonReconcile (urls : List String) : Nat → List Json → Option (List Json)
  | _, [] => some []
  | i, seg :: rest =>
    match seg with
    | Json.null => none
    | _ =>
      if isPlagJson seg && jsFalsy (jsGetField seg "sourceUrl") && !urls.isEmpty then
        match jsonReconcile urls ((i + 1) % urls.length) rest with
        | some tail => some (setFieldJson seg "sourceUrl" (Json.str (urls.getD i "")) :: tail)
        | none => none
      else
        match jsonReconcile urls i rest with
        | some tail => some (seg :: tail)
        | none => none

/-- Response handling of the first service variant, src/unnamed/part_000
lines 79-102: default an empty response text to the two-character object
literal, strip fence markers, JSON.parse, and, when grounding chunks are
present, backfill plagiarism segment urls round-robin.  Any thrown error
(parse failure, or a missing or non-array segments member during the
backfill) is caught by the surrounding try and surfaces as a failed
analysis, modelled as none. -/
def analyzeTextV1 (rawText : String) (chunks : List (Option String)) : Option Json :=
  let cs0 := if rawText = "" then [lbrace, rbrace] else rawText.toList
  let cs1 := stripFences cs0
  match jsonParseList cs1 with
  | none => none
  | some parsed =>
    if chunks.isEmpty then some parsed
    else
      let urls := extractUrls chunks
      match jsGetField parsed "segments" with
      | some (Json.arr segs) =>
        match jsonReconcile urls 0 segs with
        | some segs2 => some (setFieldJson parsed "segments" (Json.arr segs2))
        | none => none
      | _ => none

/-- Substring match of the fallback regex that takes everything from the
first opening brace to the last closing brace, as used by the extraction
variants (src/unnamed/part_000 lines 157-164 and src/unnamed/part_002). -/
def extractBraced (s : String) : Option (List Char) :=
  let cs := s.toList
  match cs.findIdx? (fun c => c = lbrace), cs.reverse.findIdx? (fun c => c = rbrace) with
  | some i, some kRev =>
    let j := cs.length - 1 - kRev
    if i < j then some ((cs.drop i).take (j - i + 1)) else none
  | _, _ => none

/-- Extraction front of the variants with the regex fallback: fail when no
braced substring exists, else JSON.parse the matched substring. -/
def extractBracedParse (s : String) : Option Json :=
  match extractBraced s with
  | some cs => jsonParseList cs
  | none => none

/-- Segment kind from its wire string. -/
def decodeSegType : String → Option SegType
  | "original" => some SegType.original
  | "plagiarism" => some SegType.plagiarism
  | "grammar" => some SegType.grammar
  | _ => none

/-- A parsed array of strings. -/
def decodeStrList (j : Json) : Option (List String) :=
  match j with
  | Json.arr xs => xs.mapM (fun x => match x with | Json.str s => some s | _ => none)
  | _ => none

/-- An optional string member: absent is fine, a non-string value is not. -/
def decodeOptStr (j : Json) (k : String) : Option (Option String) :=
  match jsGetField j k with
  | none => some none
  | some (Json.str s) => some (some s)
  | some _ => none

/-- Conformance of a parsed segment to the TextSegment interface of
src/types.ts.  The source casts the parsed value blindly, so this decoder is
the checkable form of the interface. -/
def decodeSegment (j : Json) : Option TextSegment :=
  match jsGetField j "text", jsGetField j "type" with
  | some (Json.str t), some (Json.str ty) =>
    match decodeSegType ty with
    | none => none
    | some st =>
      let sug : Option (Option (List String)) :=
        match jsGetField j "suggestions" with
        | none => some none
        | some v => (decodeStrList v).map some
      match sug, decodeOptStr j "sourceUrl", decodeOptStr j "explanation",
          decodeOptStr j "citation" with
      | some sg, some su, some ex, some ci =>
        some { text := t, type := st, suggestions := sg, sourceUrl := su,
               explanation := ex, citation := ci }
      | _, _, _, _ => none
  | _, _ => none

/-- Conformance of a parsed subtopic to the Subtopic interface of
src/types.ts. -/
def decodeSubtopic (j : Json) : Option Subtopic :=
  match jsGetField j "title", jsGetField j "segmentIndex" with
  | some (Json.str t), some (Json.num q) =>
    if q.den = 1 then some { title := t, segmentIndex := q.num } else none
  | _, _ => none

/-- Conformance of a parsed response to the AnalysisResult interface of
src/types.ts, the structural validity the spec attributes to a committed
result. -/
def decodeAnalysisResult (j : Json) : Option AnalysisResult :=
  match jsGetField j "plagiarismPercentage", jsGetField j "grammarScore",
      jsGetField j "aiLikelihood", jsGetField j "writingTone",
      jsGetField j "overallSummary" with
  | some (Json.num pp), some (Json.num gs), some (Json.num ai),
      some (Json.str wt), some (Json.str os) =>
    match jsGetField j "subtopics", jsGetField j "segments", jsGetField j "citations" with
    | some (Json.arr sts), some (Json.arr segs), some cits =>
      match sts.mapM decodeSubtopic, segs.mapM decodeSegment, decodeStrList cits with
      | some sts2, some segs2, some cits2 =>
        some { plagiarismPercentage := pp, grammarScore := gs, aiLikelihood := ai,
               writingTone := wt, overallSummary := os, subtopics := sts2,
               segments := segs2, citations := cits2 }
      | _, _, _ => none
    | _, _, _ => none
  | _, _, _, _, _ => none

/-- Modelled from the spec, section 4.4 and P3: the k-th unattributed
plagiarism segment, counting from 0 across the sequence, receives
references[k mod length].  This is the specification-side description of the
round-robin assignment, stated without the cursor, used to compare the
source loop against the spec. -/
def roundRobinSpec (refs : List String) : Nat → List TextSegment → List TextSegment
  | _, [] => []
  | k, s :: rest =>
    if unattributed s then
      { s with sourceUrl := some (refs.getD (k % refs.length) "") } ::
        roundRobinSpec refs (k + 1) rest
    else
      s :: roundRobinSpec refs k rest

/-- First suggestion of a segment, when it has a nonempty suggestion list;
the value handleAutoCorrectAll applies. -/
def firstSug (s : TextSegment) : Option String :=
  match s.suggestions with
  | some (x :: _) => some x
  | _ => none

/-- Committed concatenation of the first-variant pipeline: the parsed and
reconciled response, read back through the types.ts interface, with its
segment texts concatenated. -/
def pipelineConcatV1 (raw : String) (chunks : List (Option String)) : Option String :=
  ((analyzeTextV1 raw chunks).bind decodeAnalysisResult).map (fun r => concatTexts r.segments)

/- Concrete inputs used by witnesses and counterexamples. -/

/-- The object payload of the P6 fenced response, with the ellipsis of the
claim instantiated by the remaining required fields. -/
def c8json : String := "\x7b\"plagiarismPercentage\":10,\"grammarScore\":88,\"aiLikelihood\":5,\"writingTone\":\"Formal\",\"overallSummary\":\"Mostly original.\",\"subtopics\":[],\"segments\":[\x7b\"text\":\"Hello world.\",\"type\":\"original\"\x7d],\"citations\":[]\x7d"

/-- The raw P6 response: prose, then a fenced JSON object. -/
def c8raw : String := "Sure! ```json\n" ++ c8json ++ "\n```"

/-- The result the P6 payload denotes under the types.ts interface. -/
def c8result : AnalysisResult :=
  { plagiarismPercentage := 10, grammarScore := 88, aiLikelihood := 5, writingTone := "Formal",
    overallSummary := "Mostly original.", subtopics := [],
    segments := [{ text := "Hello world.", type := SegType.original }], citations := [] }

/-- An input text long enough for handleAnalyze to accept (69 characters). -/
def c1input : String :=
  "This input text is comfortably longer than fifty characters in total."

/-- A well-formed service response whose segments spell a different text
than the input. -/
def c1raw : String := "\x7b\"plagiarismPercentage\":0,\"grammarScore\":95,\"aiLikelihood\":1,\"writingTone\":\"Casual\",\"overallSummary\":\"Fine.\",\"subtopics\":[],\"segments\":[\x7b\"text\":\"Totally unrelated text.\",\"type\":\"original\"\x7d],\"citations\":[]\x7d"

/-- Two references for the round-robin witness. -/
def refs3 : List String := ["http://r0.test", "http://r1.test"]

/-- Five unattributed plagiarism segments for the round-robin witness. -/
def segs3 : List TextSegment :=
  [⟨"a", SegType.plagiarism, none, none, none, none⟩,
   ⟨"b", SegType.plagiarism, none, none, none, none⟩,
   ⟨"c", SegType.plagiarism, none, none, none, none⟩,
   ⟨"d", SegType.plagiarism, none, none, none, none⟩,
   ⟨"e", SegType.plagiarism, none, none, none, none⟩]

/-- A result whose flagged segment carries suggestions, a source url and an
explanation, for the clearing counterexample. -/
def c2r : AnalysisResult :=
  { plagiarismPercentage := 40, grammarScore := 70, aiLikelihood := 0, writingTone := "Neutral",
    overallSummary := "S", subtopics := [],
    segments := [⟨"bad text", SegType.grammar, some ["good text"], some "http://u.test/1",
      some "awkward", none⟩],
    citations := [] }

/-- A two-segment result for the replaceSegment witness. -/
def c2wr : AnalysisResult :=
  { plagiarismPercentage := 20, grammarScore := 70, aiLikelihood := 0, writingTone := "Neutral",
    overallSummary := "S", subtopics := [],
    segments := [⟨"He go home.", SegType.grammar, some ["He goes home."], none,
      some "agreement", none⟩,
      ⟨" The rest.", SegType.original, none, none, none, none⟩],
    citations := [] }

/-- Grounding chunks with one usable uri, a chunk without a web uri and a
duplicate, for the reconciliation frame claims. -/
def c5chunks : List (Option String) := [some "http://a.test/x", none, some "http://a.test/x"]

/-- A result with one unattributed plagiarism segment and one original
segment, for the reconciliation frame claims. -/
def c5r : AnalysisResult :=
  { plagiarismPercentage := 10, grammarScore := 80, aiLikelihood := 0, writingTone := "T",
    overallSummary := "S", subtopics := [],
    segments := [⟨"copied bit", SegType.plagiarism, none, none, none, none⟩,
      ⟨" own bit", SegType.original, none, none, none, none⟩],
    citations := [] }

/-- A result with one flagged segment with a suggestion and one original
segment, for the applyAllSuggestions witness. -/
def c6r : AnalysisResult :=
  { plagiarismPercentage := 30, grammarScore := 60, aiLikelihood := 0, writingTone := "T",
    overallSummary := "S", subtopics := [],
    segments := [⟨"teh word", SegType.grammar, some ["the word"], none, none, none⟩,
      ⟨" fine part", SegType.original, none, none, none, none⟩],
    citations := [] }

/-- A result whose grammarScore is out of range, as nothing validates the
service scores. -/
def c9r : AnalysisResult :=
  { plagiarismPercentage := 20, grammarScore := 150, aiLikelihood := 0, writingTone := "T",
    overallSummary := "S", subtopics := [],
    segments := [⟨"abcd", SegType.plagiarism, none, none, none, none⟩],
    citations := [] }

/-- A result whose only segment has empty text, for the zero-total-length
claim. -/
def c10r : AnalysisResult :=
  { plagiarismPercentage := 0, grammarScore := 90, aiLikelihood := 0, writingTone := "T",
    overallSummary := "S", subtopics := [],
    segments := [⟨"", SegType.grammar, some [""], none, none, none⟩],
    citations := [] }

/- Helper lemmas about the list operations of the reconciliation loops. -/

theorem isEmpty_false_of_ne_nil {α : Type} {l : List α} (h : l ≠ []) : l.isEmpty = false := by
  cases l with
  | nil => exact absurd rfl h
  | cons a t => rfl

theorem getD_mem_of_lt (l : List String) (i : Nat) (h : i < l.length) : l.getD i "" ∈ l := by
  induction l generalizing i with
  | nil => simp at h
  | cons x xs ih =>
    cases i with
    | zero => simp
    | succ n =>
      simp only [List.getD_cons_succ]
      exact List.mem_cons_of_mem _ (ih n (by simpa using h))

theorem reconcile_nil_urls (i : Nat) (segs : List TextSegment) : reconcile [] i segs = segs := by
  induction segs generalizing i with
  | nil => rfl
  | cons s rest ih => simp [reconcile, ih]

theorem reconcile_concat (urls : List String) (segs : List TextSegment) :
    ∀ i, concatTexts (reconcile urls i segs) = concatTexts segs := by
  induction segs with
  | nil => intro i; rfl
  | cons s rest ih =>
    intro i
    simp only [reconcile]
    split
    · simp [concatTexts, ih]
    · simp [concatTexts, ih]

theorem reconcileB_concat (urls : List String) (segs : List TextSegment) :
    ∀ i, concatTexts (reconcileB urls i segs) = concatTexts segs := by
  induction segs with
  | nil => intro i; rfl
  | cons s rest ih =>
    intro i
    simp only [reconcileB]
    split
    · simp [concatTexts, ih]
    · simp [concatTexts, ih]

theorem reconcileB_length (urls : List String) (segs : List TextSegment) :
    ∀ i, (reconcileB urls i segs).length = segs.length := by
  induction segs with
  | nil => intro i; rfl
  | cons s rest ih =>
    intro i
    simp only [reconcileB]
    split
    · simp [ih]
    · simp [ih]

theorem reconcileB_getD (urls : List String) (segs : List TextSegment) :
    ∀ i j, j < segs.length →
      ((reconcileB urls i segs).getD j dSeg).text = (segs.getD j dSeg).text ∧
      ((reconcileB urls i segs).getD j dSeg).type = (segs.getD j dSeg).type ∧
      ((reconcileB urls i segs).getD j dSeg).suggestions = (segs.getD j dSeg).suggestions ∧
      ((reconcileB urls i segs).getD j dSeg).explanation = (segs.getD j dSeg).explanation ∧
      ((reconcileB urls i segs).getD j dSeg).citation = (segs.getD j dSeg).citation ∧
      (unattributed (segs.getD j dSeg) = false →
        (reconcileB urls i segs).getD j dSeg = segs.getD j dSeg) := by
  induction segs with
  | nil => intro i j hj; simp at hj
  | cons s rest ih =>
    intro i j hj
    cases j with
    | zero =>
      simp only [List.getD_cons_zero, reconcileB]
      split
      · next h =>
        have hs : unattributed s = true := by
          simp only [Bool.and_eq_true] at h
          exact h.1
        simp [hs]
      · simp
    | succ n =>
      have hn : n < rest.length := by simpa using hj
      simp only [List.getD_cons_succ, reconcileB]
      split
      · simpa using ih _ n hn
      · simpa using ih _ n hn

theorem reconcile_mod_eq_spec (refs : List String) (h : refs ≠ []) (segs : List TextSegment) :
    ∀ k, reconcile refs (k % refs.length) segs = roundRobinSpec refs k segs := by
  have hne : (!refs.isEmpty) = true := by rw [isEmpty_false_of_ne_nil h]; rfl
  induction segs with
  | nil => intro k; rfl
  | cons s rest ih =>
    intro k
    by_cases hs : unattributed s = true
    · simp only [reconcile, roundRobinSpec, hs, hne, Bool.and_true, if_pos]
      rw [Nat.mod_add_mod]
      exact congrArg (List.cons _) (ih (k + 1))
    · have hs2 : unattributed s = false := by simpa using hs
      simp only [reconcile, roundRobinSpec, hs2, Bool.false_and, Bool.false_eq_true,
        not_false_iff, if_neg]
      exact congrArg (List.cons _) (ih k)

theorem spec_assigned (refs : List String) (segs : List TextSegment) :
    ∀ k j, j < segs.length → unattributed (segs.getD j dSeg) = true →
      ((roundRobinSpec refs k segs).getD j dSeg).sourceUrl.isSome = true := by
  induction segs with
  | nil => intro k j hj; simp at hj
  | cons s rest ih =>
    intro k j hj hu
    cases j with
    | zero =>
      rw [List.getD_cons_zero] at hu
      simp [roundRobinSpec, hu]
    | succ n =>
      rw [List.getD_cons_succ] at hu
      have hn : n < rest.length := by simpa using hj
      by_cases hs : unattributed s = true
      · simp only [roundRobinSpec, hs, if_pos, List.getD_cons_succ]
        exact ih (k + 1) n hn hu
      · have hs2 : unattributed s = false := by simpa using hs
        simp only [roundRobinSpec, hs2, Bool.false_eq_true, not_false_iff, if_neg,
          List.getD_cons_succ]
        exact ih k n hn hu

theorem extractUrls_mem_ne_empty (chunks : List (Option String)) :
    ∀ u ∈ extractUrls chunks, u.isEmpty = false := by
  intro u hu
  simp only [extractUrls, List.mem_filter] at hu
  simpa using hu.2

theorem reconcile_no_unattr (urls : List String) (hne : urls ≠ [])
    (hns : ∀ u ∈ urls, u.isEmpty = false) (segs : List TextSegment) :
    ∀ i, i < urls.length → ∀ s ∈ reconcile urls i segs, unattributed s = false := by
  have hb : (!urls.isEmpty) = true := by rw [isEmpty_false_of_ne_nil hne]; rfl
  induction segs with
  | nil => intro i hi s hs; simp [reconcile] at hs
  | cons a rest ih =>
    intro i hi s hs
    by_cases ha : unattributed a = true
    · simp only [reconcile, ha, hb, Bool.and_true, if_pos] at hs
      rcases List.mem_cons.mp hs with h | h
      · subst h
        have hu2 : (urls.getD i "").isEmpty = false := hns _ (getD_mem_of_lt urls i hi)
        simp only [unattributed, strFalsy]
        rw [hu2, Bool.and_false]
      · exact ih ((i + 1) % urls.length) (Nat.mod_lt _ (List.length_pos.mpr hne)) s h
    · have ha2 : unattributed a = false := by simpa using ha
      simp only [reconcile, ha2, Bool.false_and, Bool.false_eq_true, not_false_iff, if_neg] at hs
      rcases List.mem_cons.mp hs with h | h
      · subst h; exact ha2
      · exact ih i hi s h

theorem reconcile_fixed (urls : List String) (segs : List TextSegment)
    (h : ∀ s ∈ segs, unattributed s = false) : ∀ i, reconcile urls i segs = segs := by
  induction segs with
  | nil => intro i; rfl
  | cons a rest ih =>
    intro i
    have ha : unattributed a = false := h a (by simp)
    simp only [reconcile, ha, Bool.false_and, Bool.false_eq_true, not_false_iff, if_neg]
    exact congrArg _ (ih (fun s hs => h s (by simp [hs])) i)

theorem replaceAt_length (sel : Nat) (sugg : String) (l : List TextSegment) :
    ∀ n, (replaceAt sel sugg n l).length = l.length := by
  induction l with
  | nil => intro n; rfl
  | cons s rest ih => intro n; simp [replaceAt, ih]

theorem replaceAt_getD (sel : Nat) (sugg : String) (l : List TextSegment) :
    ∀ n j, j < l.length →
      (replaceAt sel sugg n l).getD j dSeg =
        if n + j = sel then
          { l.getD j dSeg with text := sugg, type := SegType.original }
        else l.getD j dSeg := by
  induction l with
  | nil => intro n j hj; simp at hj
  | cons s rest ih =>
    intro n j hj
    cases j with
    | zero =>
      simp only [replaceAt, List.getD_cons_zero, Nat.add_zero]
    | succ m =>
      have hm : m < rest.length := by simpa using hj
      simp only [replaceAt, List.getD_cons_succ]
      rw [ih (n + 1) m hm]
      have harith : n + 1 + m = n + (m + 1) := by omega
      rw [harith]

theorem map_autoFix_getD (l : List TextSegment) :
    ∀ j, j < l.length → (l.map autoFix).getD j dSeg = autoFix (l.getD j dSeg) := by
  induction l with
  | nil => intro j hj; simp at hj
  | cons s rest ih =>
    intro j hj
    cases j with
    | zero => simp
    | succ m =>
      have hm : m < rest.length := by simpa using hj
      simpa using ih m hm

theorem foldl_add_len (l : List TextSegment) :
    ∀ n : Nat, l.foldl (fun acc s => acc + s.text.length) n =
      n + l.foldl (fun acc s => acc + s.text.length) 0 := by
  induction l with
  | nil => intro n; simp
  | cons a rest ih =>
    intro n
    simp only [List.foldl_cons]
    rw [ih (n + a.text.length), ih (0 + a.text.length)]
    omega

theorem totalLen_cons (a : TextSegment) (l : List TextSegment) :
    totalLen (a :: l) = a.text.length + totalLen l := by
  simp only [totalLen, List.foldl_cons]
  rw [foldl_add_len]
  omega

theorem plagLen_cons (a : TextSegment) (l : List TextSegment) :
    plagLen (a :: l) =
      (if a.type = SegType.plagiarism then a.text.length else 0) + plagLen l := by
  by_cases ha : a.type = SegType.plagiarism
  · simp [plagLen, List.filter_cons, ha, List.foldl_cons]
    rw [foldl_add_len]
    try omega
  · simp [plagLen, List.filter_cons, ha]

theorem plagLen_le_totalLen (segs : List TextSegment) : plagLen segs ≤ totalLen segs := by
  induction segs with
  | nil => simp [plagLen, totalLen]
  | cons a rest ih =>
    rw [plagLen_cons, totalLen_cons]
    by_cases ha : a.type = SegType.plagiarism <;> simp [ha] <;> omega

theorem roundPct_le_100 (p t : Nat) (ht : 0 < t) (h : p ≤ t) : roundPct p t ≤ 100 := by
  unfold roundPct
  have h1 : 200 * p + t ≤ 201 * t := by omega
  calc (200 * p + t) / (2 * t) ≤ (201 * t) / (2 * t) := Nat.div_le_div_right h1
    _ = 100 := by
        rw [show 201 * t = t + 2 * t * 100 by ring]
        rw [Nat.add_mul_div_left _ _ (by omega : 0 < 2 * t)]
        rw [Nat.div_eq_of_lt (by omega)]

theorem recomputePct_bounds (segs : List TextSegment) :
    0 ≤ recomputePct segs ∧ recomputePct segs ≤ 100 ∧ (recomputePct segs).den = 1 := by
  unfold recomputePct
  by_cases h : 0 < totalLen segs
  · rw [if_pos h]
    refine ⟨by positivity, ?_, Rat.den_natCast _⟩
    have hb := roundPct_le_100 (plagLen segs) (totalLen segs) h (plagLen_le_totalLen segs)
    exact_mod_cast hb
  · rw [if_neg h]
    refine ⟨le_refl 0, by norm_num, rfl⟩

/- Claim theorems. -/

/-- C1 (amended): the spec claims every committed result's segments
concatenate back to the accepted input text, but the pipeline never checks
this.  What does hold: parsing and reconciliation preserve the segment text
concatenation — both reconciliation loops leave every text unchanged — so
the committed concatenation equals whatever the external service returned,
and equality with the original input holds only when the service response
already satisfied it. -/
theorem c1_concat_preserved (urls : List String) (i : Nat) (segs : List TextSegment)
    (chunks : List (Option String)) (r : AnalysisResult) :
    concatTexts (reconcile urls i segs) = concatTexts segs ∧
    concatTexts (applyGroundingV2 chunks r).segments = concatTexts r.segments := by
  refine ⟨reconcile_concat urls segs i, ?_⟩
  by_cases h1 : chunks.isEmpty = true
  · simp [applyGroundingV2, h1]
  · by_cases h2 : (extractUrls chunks).isEmpty = true
    · simp [applyGroundingV2, h1, h2]
    · simp [applyGroundingV2, h1, h2, reconcileB_concat]

/-- C1 counterexample: a concrete input accepted by handleAnalyze and a
concrete well-formed service response are committed although the committed
segments concatenate to a different string than the input, refuting the
reconstruction claim on the code. -/
theorem c1_counterexample :
    acceptsInput c1input = true ∧
    pipelineConcatV1 c1raw [] = some "Totally unrelated text." ∧
    some c1input ≠ some "Totally unrelated text." := by
  refine ⟨by decide, by decide, by decide⟩

/-- C2 (amended): replaceSegment replaces the selected segment's text with
the chosen suggestion and marks it original, preserves segment count and
order, leaves every other segment and every other result field unchanged,
and recomputes plagiarismPercentage from the new segments.  Contrary to the
claim, suggestions, explanation and sourceUrl of the replaced segment are
retained, not cleared: the second conjunct keeps them via the with-update. -/
theorem c2_replace_segment (r : AnalysisResult) (sel : Nat) (sugg : String) (j : Nat)
    (hsel : sel < r.segments.length) (hj : j < r.segments.length) (hne : j ≠ sel) :
    (replaceSegment r sel sugg).segments.length = r.segments.length ∧
    (replaceSegment r sel sugg).segments.getD sel dSeg =
      { r.segments.getD sel dSeg with text := sugg, type := SegType.original } ∧
    (replaceSegment r sel sugg).segments.getD j dSeg = r.segments.getD j dSeg ∧
    (replaceSegment r sel sugg).grammarScore = r.grammarScore ∧
    (replaceSegment r sel sugg).aiLikelihood = r.aiLikelihood ∧
    (replaceSegment r sel sugg).writingTone = r.writingTone ∧
    (replaceSegment r sel sugg).overallSummary = r.overallSummary ∧
    (replaceSegment r sel sugg).subtopics = r.subtopics ∧
    (replaceSegment r sel sugg).citations = r.citations ∧
    (replaceSegment r sel sugg).plagiarismPercentage =
      recomputePct (replaceSegment r sel sugg).segments := by
  refine ⟨replaceAt_length sel sugg r.segments 0, ?_, ?_, rfl, rfl, rfl, rfl, rfl, rfl, rfl⟩
  · show (replaceAt sel sugg 0 r.segments).getD sel dSeg = _
    rw [replaceAt_getD sel sugg r.segments 0 sel hsel]
    simp
  · show (replaceAt sel sugg 0 r.segments).getD j dSeg = _
    rw [replaceAt_getD sel sugg r.segments 0 j hj]
    simp [hne]

/-- C2 witness: the amended theorem at a concrete two-segment result. -/
theorem c2_replace_segment_witness :
    0 < c2wr.segments.length ∧ 1 < c2wr.segments.length ∧ (1 : Nat) ≠ 0 ∧
    (replaceSegment c2wr 0 "He goes home.").segments.getD 0 dSeg =
      { c2wr.segments.getD 0 dSeg with text := "He goes home.", type := SegType.original } ∧
    (replaceSegment c2wr 0 "He goes home.").segments.getD 1 dSeg = c2wr.segments.getD 1 dSeg :=
  ⟨by decide, by decide, by decide,
    (c2_replace_segment c2wr 0 "He goes home." 1 (by decide) (by decide) (by decide)).2.1,
    (c2_replace_segment c2wr 0 "He goes home." 1 (by decide) (by decide) (by decide)).2.2.1⟩

/-- C2 counterexample: the claim says applySuggestion clears suggestions,
explanation and sourceUrl of the replaced segment; the code retains all
three through the object spread, as this concrete run shows. -/
theorem c2_counterexample :
    ((replaceSegment c2r 0 "good text").segments.getD 0 dSeg).suggestions ≠ none ∧
    ((replaceSegment c2r 0 "good text").segments.getD 0 dSeg).explanation ≠ none ∧
    ((replaceSegment c2r 0 "good text").segments.getD 0 dSeg).sourceUrl ≠ none := by
  refine ⟨by decide, by decide, by decide⟩

/-- C3: confirmed.  With a nonempty reference list the source cursor loop
equals the specified round-robin assignment — the k-th unattributed
plagiarism segment receives references[k mod length] — and every
unattributed plagiarism segment ends up with an assigned sourceUrl. -/
theorem c3_round_robin (refs : List String) (segs : List TextSegment) (j : Nat)
    (h : refs ≠ []) (hj : j < segs.length)
    (hu : unattributed (segs.getD j dSeg) = true) :
    reconcile refs 0 segs = roundRobinSpec refs 0 segs ∧
    ((reconcile refs 0 segs).getD j dSeg).sourceUrl.isSome = true := by
  have he := reconcile_mod_eq_spec refs h segs 0
  rw [Nat.zero_mod] at he
  exact ⟨he, by rw [he]; exact spec_assigned refs segs 0 j hj hu⟩

/-- C3 witness: two references and five unattributed plagiarism segments
give the assignment pattern ref0, ref1, ref0, ref1, ref0. -/
theorem c3_round_robin_witness :
    refs3 ≠ [] ∧ 2 < segs3.length ∧ unattributed (segs3.getD 2 dSeg) = true ∧
    (reconcile refs3 0 segs3 = roundRobinSpec refs3 0 segs3 ∧
      ((reconcile refs3 0 segs3).getD 2 dSeg).sourceUrl.isSome = true) ∧
    (reconcile refs3 0 segs3).map (fun s => s.sourceUrl) =
      [some "http://r0.test", some "http://r1.test", some "http://r0.test",
        some "http://r1.test", some "http://r0.test"] :=
  ⟨by decide, by decide, by decide,
    c3_round_robin refs3 segs3 2 (by decide) (by decide) (by decide), by decide⟩

/-- C4 (amended): an empty raw response fails in the variants that parse the
response text directly — JSON.parse of the empty string throws
(src/unnamed/part_001 lines 59-60) and the braced-substring extraction finds
no match (src/unnamed/part_002) — surfacing as a generic analysis failure
with no result; there is no distinct EmptyResponse class.  In the part_000
variant the claim fails, see the counterexample. -/
theorem c4_empty_response :
    jsonParse "" = none ∧ extractBraced "" = none ∧ extractBracedParse "" = none :=
  ⟨rfl, rfl, rfl⟩

/-- C4 counterexample: the first service variant defaults an empty response
text to the two-character object literal, so the parse succeeds and an empty
object is returned and committed instead of failing. -/
theorem c4_counterexample : analyzeTextV1 "" [] = some (Json.obj []) := rfl

/-- C5 (amended): reconciliation changes only the sourceUrl of plagiarism
segments that lack one and — contrary to the claim — the overallSummary, to
which it appends a source count whenever the extracted url list is nonempty.
Scores, tone, subtopics, citations, segment count and order, and each
segment's text, kind, suggestions, explanation and citation are unchanged,
and already-attributed segments are untouched. -/
theorem c5_grounding_frame (chunks : List (Option String)) (r : AnalysisResult) (j : Nat)
    (hj : j < r.segments.length) :
    (applyGroundingV2 chunks r).plagiarismPercentage = r.plagiarismPercentage ∧
    (applyGroundingV2 chunks r).grammarScore = r.grammarScore ∧
    (applyGroundingV2 chunks r).aiLikelihood = r.aiLikelihood ∧
    (applyGroundingV2 chunks r).writingTone = r.writingTone ∧
    (applyGroundingV2 chunks r).subtopics = r.subtopics ∧
    (applyGroundingV2 chunks r).citations = r.citations ∧
    (applyGroundingV2 chunks r).segments.length = r.segments.length ∧
    ((applyGroundingV2 chunks r).segments.getD j dSeg).text = (r.segments.getD j dSeg).text ∧
    ((applyGroundingV2 chunks r).segments.getD j dSeg).type = (r.segments.getD j dSeg).type ∧
    ((applyGroundingV2 chunks r).segments.getD j dSeg).suggestions =
      (r.segments.getD j dSeg).suggestions ∧
    ((applyGroundingV2 chunks r).segments.getD j dSeg).explanation =
      (r.segments.getD j dSeg).explanation ∧
    ((applyGroundingV2 chunks r).segments.getD j dSeg).citation =
      (r.segments.getD j dSeg).citation ∧
    (unattributed (r.segments.getD j dSeg) = false →
      (applyGroundingV2 chunks r).segments.getD j dSeg = r.segments.getD j dSeg) ∧
    (extractUrls chunks = [] → applyGroundingV2 chunks r = r) ∧
    (chunks ≠ [] → extractUrls chunks ≠ [] →
      (applyGroundingV2 chunks r).overallSummary =
        r.overallSummary ++ "\n\nPotential sources identified: " ++
          toString (jsDedup (extractUrls chunks)).length) := by
  by_cases h1 : chunks.isEmpty = true
  · have hc : chunks = [] := by
      cases chunks with
      | nil => rfl
      | cons a t => simp at h1
    have hg : applyGroundingV2 chunks r = r := by simp [applyGroundingV2, h1]
    rw [hg]
    exact ⟨rfl, rfl, rfl, rfl, rfl, rfl, rfl, rfl, rfl, rfl, rfl, rfl, fun _ => rfl,
      fun _ => rfl, fun hne _ => absurd hc hne⟩
  · by_cases h2 : (extractUrls chunks).isEmpty = true
    · have hu : extractUrls chunks = [] := by
        cases hx : extractUrls chunks with
        | nil => rfl
        | cons a t => rw [hx] at h2; simp at h2
      have hg : applyGroundingV2 chunks r = r := by simp [applyGroundingV2, h1, h2]
      rw [hg]
      exact ⟨rfl, rfl, rfl, rfl, rfl, rfl, rfl, rfl, rfl, rfl, rfl, rfl, fun _ => rfl,
        fun _ => rfl, fun _ hne => absurd hu hne⟩
    · have hu : extractUrls chunks ≠ [] := by
        intro hx
        rw [hx] at h2
        simp at h2
      have hg : applyGroundingV2 chunks r =
          { r with
              segments := reconcileB (extractUrls chunks) 0 r.segments,
              overallSummary := r.overallSummary ++ "\n\nPotential sources identified: " ++
                toString (jsDedup (extractUrls chunks)).length } := by
        simp [applyGroundingV2, h1, h2]
      rw [hg]
      obtain ⟨e1, e2, e3, e4, e5, e6⟩ := reconcileB_getD (extractUrls chunks) r.segments 0 j hj
      exact ⟨rfl, rfl, rfl, rfl, rfl, rfl, reconcileB_length _ _ 0, e1, e2, e3, e4, e5, e6,
        fun hx => absurd hx hu, fun _ _ => rfl⟩

/-- C5 witness: the amended theorem at a concrete result and chunk list. -/
theorem c5_grounding_frame_witness :
    0 < c5r.segments.length ∧
    (applyGroundingV2 c5chunks c5r).grammarScore = c5r.grammarScore ∧
    ((applyGroundingV2 c5chunks c5r).segments.getD 0 dSeg).text =
      (c5r.segments.getD 0 dSeg).text :=
  ⟨by decide,
    (c5_grounding_frame c5chunks c5r 0 (by decide)).2.1,
    (c5_grounding_frame c5chunks c5r 0 (by decide)).2.2.2.2.2.2.2.1⟩

/-- C5 counterexample: with a nonempty grounding url list the reconciliation
step changes overallSummary, which the claim asserts is unchanged. -/
theorem c5_counterexample :
    (applyGroundingV2 c5chunks c5r).overallSummary ≠ c5r.overallSummary := by decide

/-- C6: confirmed.  applyAllSuggestions rewrites every non-original segment
that has at least one suggestion to its first suggestion with kind original,
leaves every other segment unchanged, preserves the segment count, and then
forces plagiarismPercentage to 0 and grammarScore to 100 unconditionally. -/
theorem c6_auto_correct_all (r : AnalysisResult) (j : Nat) (hj : j < r.segments.length) :
    (handleAutoCorrectAll r).plagiarismPercentage = 0 ∧
    (handleAutoCorrectAll r).grammarScore = 100 ∧
    (handleAutoCorrectAll r).segments.length = r.segments.length ∧
    ((r.segments.getD j dSeg).type = SegType.original →
      (handleAutoCorrectAll r).segments.getD j dSeg = r.segments.getD j dSeg) ∧
    (firstSug (r.segments.getD j dSeg) = none →
      (handleAutoCorrectAll r).segments.getD j dSeg = r.segments.getD j dSeg) ∧
    ((r.segments.getD j dSeg).type ≠ SegType.original →
      firstSug (r.segments.getD j dSeg) ≠ none →
      (handleAutoCorrectAll r).segments.getD j dSeg =
        { r.segments.getD j dSeg with
            text := (firstSug (r.segments.getD j dSeg)).getD "",
            type := SegType.original }) := by
  have hmap : (handleAutoCorrectAll r).segments.getD j dSeg = autoFix (r.segments.getD j dSeg) :=
    map_autoFix_getD r.segments j hj
  set s := r.segments.getD j dSeg with hsdef
  refine ⟨rfl, rfl, by simp [handleAutoCorrectAll], ?_, ?_, ?_⟩
  · intro hty
    rw [hmap]
    unfold autoFix
    rw [if_neg (by simp [hty])]
  · intro hfs
    rw [hmap]
    unfold autoFix
    cases hsug : s.suggestions with
    | none => split <;> rfl
    | some l =>
      cases l with
      | nil => split <;> rfl
      | cons x xs =>
        have hx : firstSug s = some x := by
          unfold firstSug
          rw [hsug]
        rw [hx] at hfs
        simp at hfs
  · intro hty hfs
    rw [hmap]
    unfold autoFix
    rw [if_pos hty]
    cases hsug : s.suggestions with
    | none =>
      have hx : firstSug s = none := by
        unfold firstSug
        rw [hsug]
      exact absurd hx hfs
    | some l =>
      cases l with
      | nil =>
        have hx : firstSug s = none := by
          unfold firstSug
          rw [hsug]
        exact absurd hx hfs
      | cons x xs =>
        have hx : firstSug s = some x := by
          unfold firstSug
          rw [hsug]
        rw [hx]
        simp [hsug]

/-- C6 witness: the theorem at a concrete result, plus the concrete
correction of its flagged segment. -/
theorem c6_auto_correct_all_witness :
    0 < c6r.segments.length ∧
    (handleAutoCorrectAll c6r).plagiarismPercentage = 0 ∧
    (handleAutoCorrectAll c6r).grammarScore = 100 ∧
    (handleAutoCorrectAll c6r).segments.getD 0 dSeg =
      { c6r.segments.getD 0 dSeg with text := "the word", type := SegType.original } ∧
    (handleAutoCorrectAll c6r).segments.getD 1 dSeg = c6r.segments.getD 1 dSeg :=
  ⟨by decide, (c6_auto_correct_all c6r 0 (by decide)).1,
    (c6_auto_correct_all c6r 0 (by decide)).2.1, by decide, by decide⟩

/-- C7: confirmed.  The reference list the code builds is filtered of falsy
entries, so after one reconciliation run no plagiarism segment is left with
an unset or empty sourceUrl that the guard would match again: reconciling
twice equals reconciling once. -/
theorem c7_reconcile_idempotent (chunks : List (Option String)) (segs : List TextSegment) :
    reconcile (extractUrls chunks) 0 (reconcile (extractUrls chunks) 0 segs) =
      reconcile (extractUrls chunks) 0 segs := by
  by_cases hne : extractUrls chunks = []
  · rw [hne, reconcile_nil_urls, reconcile_nil_urls]
  · exact reconcile_fixed _ _
      (reconcile_no_unattr (extractUrls chunks) hne (extractUrls_mem_ne_empty chunks) segs 0
        (List.length_pos.mpr hne)) 0

/-- C8 (amended): the P6 fenced response parses successfully in the variants
that extract the braced substring, and the concrete instance decodes to a
structurally valid AnalysisResult.  The fence-stripping variant instead
fails on the same input, see the counterexample. -/
theorem c8_fenced_extraction :
    (extractBracedParse c8raw).bind decodeAnalysisResult = some c8result := by decide

/-- C8 counterexample: the fence-stripping validator of the first service
variant does not strip a fence that is not at the start of the text, so the
P6 response with leading prose fails to parse there. -/
theorem c8_counterexample : analyzeTextV1 c8raw [] = none := rfl

/-- C9 (amended): the values the recomputations produce are integers in
[0, 100] — applySuggestion's recomputed plagiarismPercentage is a natural at
most 100 and applyAllSuggestions forces 0 and 100 — but applySuggestion
leaves grammarScore untouched, so that score is in range only when it
already was (see the counterexample). -/
theorem c9_score_bounds (r : AnalysisResult) (sel : Nat) (sugg : String) :
    0 ≤ (replaceSegment r sel sugg).plagiarismPercentage ∧
    (replaceSegment r sel sugg).plagiarismPercentage ≤ 100 ∧
    ((replaceSegment r sel sugg).plagiarismPercentage).den = 1 ∧
    (replaceSegment r sel sugg).grammarScore = r.grammarScore ∧
    (handleAutoCorrectAll r).plagiarismPercentage = 0 ∧
    (handleAutoCorrectAll r).grammarScore = 100 := by
  obtain ⟨b1, b2, b3⟩ := recomputePct_bounds (replaceAt sel sugg 0 r.segments)
  exact ⟨b1, b2, b3, rfl, rfl, rfl⟩

/-- C9 counterexample: a result whose grammarScore is 150 keeps that value
through applySuggestion's recompute, so the claimed bound on grammarScore
after the recompute fails. -/
theorem c9_counterexample : ¬((replaceSegment c9r 0 "x").grammarScore ≤ 100) := by decide

/-- C10: confirmed.  When the total character count over the new segments is
zero, the guard picks the zero branch: the recompute is total and sets
plagiarismPercentage to 0 without dividing by zero. -/
theorem c10_zero_total (r : AnalysisResult) (sel : Nat) (sugg : String)
    (h : totalLen (replaceSegment r sel sugg).segments = 0) :
    (replaceSegment r sel sugg).plagiarismPercentage = 0 := by
  have hp : (replaceSegment r sel sugg).plagiarismPercentage =
      recomputePct (replaceSegment r sel sugg).segments := rfl
  rw [hp]
  unfold recomputePct
  rw [h]
  simp

/-- C10 witness: a result whose every segment text is empty. -/
theorem c10_zero_total_witness :
    totalLen (replaceSegment c10r 0 "").segments = 0 ∧
    (replaceSegment c10r 0 "").plagiarismPercentage = 0 :=
  ⟨by decide, c10_zero_total c10r 0 "" (by decide)⟩
